import Mathlib

/-!
Shallow embedding of `src/vote.py`, a Streamlit survey app backed by a
Google-Sheets-like tabular store.  Pure logic (validation, list building,
tallying) is translated directly; effectful store calls are modelled by
explicit state passing, with the outcome of an external call (success or
exception) passed in as a parameter where the source wraps it in
`try/except`.
-/

namespace Vote

/-- Employee row of the `employee_details` table: columns `name, email, status`. -/
structure Employee where
  name : String
  email : String
  status : String
deriving DecidableEq, Repr

/-- Question row of the `questions` table: columns `question_id, question`. -/
structure Question where
  question_id : Nat
  question : String
deriving DecidableEq, Repr

/-- Response row of the `employee_responses` table, as built by the submit
handler: `email, name, question_id, name_of_person_in_response`.  The nominee
field is `Option` because the source reads it with `dict.get`, which yields
`None` when the key is absent. -/
structure ResponseRecord where
  email : String
  name : String
  question_id : Nat
  name_of_person_in_response : Option String
deriving DecidableEq, Repr

/-- Streamlit session state: `st.session_state` keys used by the app.
`selections` is `none` when the key `selections` is not present in the dict
(it is deleted by the back button), and otherwise an association list from
`str(question_id)` to the optional chosen name. -/
structure SessionState where
  page : String
  user_email : Option String
  user_name : Option String
  selections : Option (List (String × Option String))
deriving DecidableEq, Repr

/-- Embedding of the constant `REQUIRED_DOMAIN = "@keydynamicssolutions"`. -/
def REQUIRED_DOMAIN : String := "@keydynamicssolutions"

/-- Python whitespace characters stripped by `str.strip()` (the subset
relevant to email cells). -/
def isWS (c : Char) : Bool := c == ' ' || c == '\t' || c == '\n' || c == '\r'

/-- Embedding of Python `s.strip()` on the character list. -/
def stripChars (cs : List Char) : List Char :=
  ((cs.dropWhile isWS).reverse.dropWhile isWS).reverse

/-- Embedding of the email normalisation `s.strip().lower()` used for every
email comparison in the source. -/
def normEmail (s : String) : List Char :=
  (stripChars s.data).map Char.toLower

/-- Helper for substring search: does `t` start at the head of `s`? -/
def headMatch : List Char → List Char → Bool
  | [], _ => true
  | _ :: _, [] => false
  | a :: as, b :: bs => a == b && headMatch as bs

/-- Helper for substring search: does `t` occur contiguously in `s`? -/
def subIn (t : List Char) : List Char → Bool
  | [] => headMatch t []
  | c :: rest => headMatch t (c :: rest) || subIn t rest

/-- Embedding of Python `t in s` (contiguous substring test) on strings. -/
def containsSub (s t : String) : Bool := subIn t.data s.data

/-- Outcome of a login attempt, one constructor per branch of `login_page`. -/
inductive LoginResult where
  | emptyEmail
  | invalidDomain
  | notFound
  | alreadyCompleted
  | success (name email : String)
deriving DecidableEq, Repr

/-- Embedding of the employee lookup loop in `login_page`: first row whose
email matches the submitted email case-insensitively (after strip/lower). -/
def findEmployee (employees : List Employee) (email : String) : Option Employee :=
  employees.find? (fun e => normEmail e.email == normEmail email)

/-- Embedding of the form-submission branch of `login_page` (vote.py lines
341-373).  Returns the user-visible result, the new session state, and a flag
recording whether the employee roster was fetched (the `fetch_employees()`
call site).  Validation failures return before the fetch and leave the
session state untouched. -/
def login_page (email : String) (employees : List Employee) (s : SessionState) :
    LoginResult × SessionState × Bool :=
  if email = "" then
    (.emptyEmail, s, false)
  else if ¬ containsSub email REQUIRED_DOMAIN then
    (.invalidDomain, s, false)
  else
    match findEmployee employees email with
    | none => (.notFound, s, true)
    | some found =>
      if found.status.data.map Char.toLower = "yes".data then
        (.alreadyCompleted, s, true)
      else
        (.success found.name found.email,
         { s with
            user_email := some found.email
            user_name := some found.name
            page := "questions" },
         true)

/-- Embedding of `update_employee_status` (vote.py lines 216-233): linear scan
of the employee table, writing status `yes` into the first row whose email
matches case-insensitively; `none` models the `return False` of the not-found
path.  The store exception path is not taken in this pure model. -/
def update_employee_status (email : String) : List Employee → Option (List Employee)
  | [] => none
  | e :: rest =>
    if normEmail e.email == normEmail email then
      some ({ e with status := "yes" } :: rest)
    else
      (update_employee_status email rest).map (e :: ·)

/-- Lexicographic strict comparison of character lists by code point: the
order Python uses to compare strings. -/
def lexLt : List Char → List Char → Bool
  | [], [] => false
  | [], _ :: _ => true
  | _ :: _, [] => false
  | a :: as, b :: bs => a < b || (a == b && lexLt as bs)

/-- Embedding of Python `a <= b` on strings (total order used by `sorted`). -/
def strLe (a b : String) : Bool := !(lexLt b.data a.data)

/-- Embedding of the nominee-list computation in `questions_page` (vote.py
lines 399-405): names of all employees whose email differs case-insensitively
from the logged-in user's email, then `sorted(list(set(names)))` — duplicates
removed and the result sorted ascending.  Python's `sorted` is a stable merge
sort; after `set()` the elements are distinct, so the result is the sorted
list of the distinct names. -/
def computeNames (employees : List Employee) (user_email : String) : List String :=
  ((((employees.filter
      (fun e => !(normEmail e.email == normEmail user_email))).map
        Employee.name).dedup).mergeSort strLe)

/-- Embedding of `st.session_state['selections'].get(k)`: association-list
lookup returning `none` both when the key is absent and when the stored value
is `None`, exactly like Python's `dict.get` with default `None` over values
that may themselves be `None`. -/
def selGet (sels : List (String × Option String)) (k : String) : Option String :=
  match sels.lookup k with
  | some v => v
  | none => none

/-- Embedding of the selections initialisation in `questions_page` (vote.py
line 416): one entry per displayed question, keyed by `str(question_id)`,
all values `None`. -/
def initSelections (qs : List Question) : List (String × Option String) :=
  qs.map (fun q => (toString q.question_id, (none : Option String)))

/-- Embedding of the response-building loop of the submit branch (vote.py
lines 474-483): one record per displayed question, carrying the submitter's
email and name, the question's id, and the selection stored under
`str(question_id)`. -/
def buildResponses (user_email user_name : String) (qs : List Question)
    (sels : List (String × Option String)) : List ResponseRecord :=
  qs.map (fun q =>
    { email := user_email
      name := user_name
      question_id := q.question_id
      name_of_person_in_response := selGet sels (toString q.question_id) })

/-- Embedding of the successful path of `append_responses` (vote.py lines
204-211): one batch append of the built rows to the `employee_responses`
table. -/
def append_responses (store : List ResponseRecord) (rs : List ResponseRecord) :
    List ResponseRecord :=
  store ++ rs

/-- Embedding of `all_selected = all(v is not None for v in selections.values())`
(vote.py line 447). -/
def allSelected (sels : List (String × Option String)) : Bool :=
  sels.all (fun p => p.2.isSome)

/-- Embedding of `unanswered_count = sum(1 for v in selections.values() if v is None)`
(vote.py line 448). -/
def unansweredCount (sels : List (String × Option String)) : Nat :=
  (sels.filter (fun p => p.2.isNone)).length

/-- Embedding of the submit button's `disabled=not all_selected` argument
(vote.py line 466). -/
def submitDisabled (sels : List (String × Option String)) : Bool :=
  !(allSelected sels)

/-- Embedding of the guard `if submit_button and all_selected:` that protects
the submit branch (vote.py line 471). -/
def submitFires (pressed : Bool) (sels : List (String × Option String)) : Bool :=
  pressed && allSelected sels

/-- Embedding of the back-button handler in `questions_page` (vote.py lines
456-461): delete the `selections` key if present and set the page to
`login`; the source deliberately keeps `user_email`/`user_name` ("keep user
info for potential return"). -/
def backToLogin (s : SessionState) : SessionState :=
  { s with selections := none, page := "login" }

/-- Effects of one run of the submit branch that are visible to the user. -/
structure SubmitOutcome where
  calledUpdate : Bool
  errorShown : Bool
  warningShown : Bool
deriving DecidableEq, Repr

/-- Embedding of the submit branch's control flow after the records are built
(vote.py lines 486-500).  The outcomes of the two store calls
(`append_responses`, `update_employee_status`) are passed in, since in the
source they are booleans produced by `try/except` wrappers.  When the append
fails the handler shows an error and returns without touching the session
state; when it succeeds, the status update is attempted, a failure there only
shows a warning, and the page becomes `success` either way. -/
def submitFlow (appendOk updateOk : Bool) (s : SessionState) :
    SubmitOutcome × SessionState :=
  if ¬ appendOk then
    ({ calledUpdate := false, errorShown := true, warningShown := false }, s)
  else
    ({ calledUpdate := true, errorShown := false, warningShown := ¬ updateOk },
     { s with page := "success" })

/-- Embedding of the vote-counting loop of `admin_dashboard` (vote.py lines
262-265): `vote_counts[name] = vote_counts.get(name, 0) + 1` on a dict that
preserves insertion order, modelled as an association list where an existing
key is bumped in place and a new key is appended. -/
def bump : List (String × Nat) → String → List (String × Nat)
  | [], nm => [(nm, 1)]
  | (k, v) :: rest, nm =>
    if k = nm then (k, v + 1) :: rest else (k, v) :: bump rest nm

/-- Tally of nominee occurrence counts over a list of nominee names, in
first-occurrence (dict insertion) order. -/
def tallyVotes (names : List String) : List (String × Nat) :=
  names.foldl bump []

/-- Comparator of `sorted(vote_counts.items(), key=lambda x: x[1], reverse=True)`:
descending by count.  Python's `sorted` with `reverse=True` is stable and
keeps equal-key elements in their original order, exactly like `mergeSort`
with this `le`. -/
def voteLe (a b : String × Nat) : Bool := b.2 ≤ a.2

/-- Response row as returned by `fetch_responses` / `get_all_records` on the
`employee_responses` table: every cell is populated, so the nominee is a plain
string here (unlike the dict built at submit time). -/
structure RespRow where
  email : String
  name : String
  question_id : Nat
  name_of_person_in_response : String
deriving DecidableEq, Repr

/-- Names of the responses to one question, in store order: the
`q_responses = [r for r in responses if r['question_id'] == q['question_id']]`
filter of `admin_dashboard` (vote.py line 258) projected to the nominee
column. -/
def questionNames (responses : List RespRow) (qid : Nat) : List String :=
  (responses.filter (fun r => r.question_id == qid)).map
    RespRow.name_of_person_in_response

/-- Embedding of the per-question report of `admin_dashboard` (vote.py lines
258-268): filter the responses by `question_id` equality, tally nominee
counts, and stable-sort descending by count. -/
def sortedVotes (responses : List RespRow) (qid : Nat) : List (String × Nat) :=
  (tallyVotes (questionNames responses qid)).mergeSort voteLe

/-- Order-preserving duplicate removal, keeping the first occurrence of each
name: the insertion order of the keys of a Python dict built by the tally
loop. -/
def firstOccs (names : List String) : List String :=
  names.foldl (fun acc n => if n ∈ acc then acc else acc ++ [n]) []

/-- A spreadsheet cell: the seeded tables hold strings and integers. -/
inductive Cell where
  | str (s : String)
  | num (n : Nat)
deriving DecidableEq, Repr

/-- A worksheet is its list of rows (header row first). -/
abbrev Sheet := List (List Cell)

/-- The spreadsheet: association list from worksheet name to worksheet,
in creation order. -/
abbrev Store := List (String × Sheet)

/-- Does a worksheet with this name exist (the `spreadsheet.worksheet(name)`
probe whose `WorksheetNotFound` branch creates it)? -/
def hasSheet (st : Store) (nm : String) : Bool := (st.lookup nm).isSome

/-- Header and sample rows seeded into `employee_details` on creation
(vote.py lines 132-138). -/
def employeeSeed : Sheet :=
  [[.str "name", .str "email", .str "status"],
   [.str "Jane Doe", .str "jane.doe@keydynamicssolutions", .str "no"],
   [.str "John Smith", .str "john.smith@keydynamicssolutions", .str "no"]]

/-- Header and sample rows seeded into `questions` on creation
(vote.py lines 145-155). -/
def questionsSeed : Sheet :=
  [[.str "question_id", .str "question"],
   [.num 1, .str "Who is the most collaborative person on the team?"],
   [.num 2, .str "Who provides the most constructive feedback?"],
   [.num 3, .str "Who displays the best leadership?"],
   [.num 4, .str "Who is the most punctual?"],
   [.num 5, .str "Who is the best at mentoring others?"],
   [.num 6, .str "Who has the most positive attitude?"]]

/-- Header row seeded into `employee_responses` on creation
(vote.py line 162). -/
def responsesSeed : Sheet :=
  [[.str "email", .str "name", .str "question_id",
    .str "name_of_person_in_response"]]

/-- One try/except block of `initialize_sheets`: if the worksheet exists,
nothing happens; otherwise it is created and the header and seed rows are
appended. -/
def ensureSheet (st : Store) (nm : String) (content : Sheet) : Store :=
  if hasSheet st nm then st else st ++ [(nm, content)]

/-- Embedding of `initialize_sheets` (vote.py lines 118-166): ensure the three
worksheets in order, each seeded only when absent. -/
def initialize_sheets (st : Store) : Store :=
  ensureSheet
    (ensureSheet
      (ensureSheet st "employee_details" employeeSeed)
      "questions" questionsSeed)
    "employee_responses" responsesSeed

/-- Embedding of `fetch_employees` (vote.py lines 172-181): the store read
either yields rows or raises; on an exception an error is displayed and the
empty list is returned.  The pair is (returned rows, error shown). -/
def fetch_employees (read : Except String (List Employee)) :
    List Employee × Bool :=
  match read with
  | .ok rows => (rows, false)
  | .error _ => ([], true)

/-- Embedding of `fetch_questions` (vote.py lines 183-192), with the same
error handling as `fetch_employees`. -/
def fetch_questions (read : Except String (List Question)) :
    List Question × Bool :=
  match read with
  | .ok rows => (rows, false)
  | .error _ => ([], true)

/-- The questions actually displayed: `questions = questions[:6]`
(vote.py line 397). -/
def activeQuestions (qs : List Question) : List Question := qs.take 6

/-! Concrete fixtures (the seed data of `initialize_sheets`), used by the
witnesses below. -/

/-- The two seeded employees as parsed rows. -/
def seedEmployees : List Employee :=
  [{ name := "Jane Doe", email := "jane.doe@keydynamicssolutions", status := "no" },
   { name := "John Smith", email := "john.smith@keydynamicssolutions", status := "no" }]

/-- Fresh session state at session start. -/
def initState : SessionState :=
  { page := "login", user_email := none, user_name := none, selections := none }

/-- Session state of a logged-in user in the middle of the survey. -/
def janeMidSurvey : SessionState :=
  { page := "questions"
    user_email := some "jane.doe@keydynamicssolutions"
    user_name := some "Jane Doe"
    selections := some [("1", some "John Smith"), ("2", none)] }

/-! Theorems for the claims. -/

/-- C3 counterexample: pressing Back from the questions page does not clear
the user binding — on a concrete mid-survey state the resulting state still
holds `user_email` and `user_name`, so the claim that the session retains no
user binding is false. -/
theorem back_retains_user_binding_cex :
    ¬ ((backToLogin janeMidSurvey).selections = none ∧
       (backToLogin janeMidSurvey).user_email = none ∧
       (backToLogin janeMidSurvey).user_name = none) := by
  decide

/-- C3 (amended): the Back transition from the questions page deletes the
in-progress selections and returns to the login page, but it retains the
user binding — `user_email` and `user_name` are left unchanged (the source
comments "keep user info for potential return"). -/
theorem back_discards_selections_keeps_user (s : SessionState) :
    (backToLogin s).selections = none ∧
    (backToLogin s).page = "login" ∧
    (backToLogin s).user_email = s.user_email ∧
    (backToLogin s).user_name = s.user_name := by
  simp [backToLogin]

/-- C2: `update_employee_status` is reached only when `append_responses`
succeeded.  On append failure the handler shows an error, does not call the
status update, and leaves the session state (in particular the page) exactly
as it was; on append success with a failed status update a warning is shown
and the page still becomes `success`. -/
theorem update_called_only_after_append (s : SessionState) (u : Bool) :
    submitFlow false u s =
      ({ calledUpdate := false, errorShown := true, warningShown := false }, s) ∧
    (submitFlow true false s).1 =
      { calledUpdate := true, errorShown := false, warningShown := true } ∧
    (submitFlow true false s).2.page = "success" ∧
    (submitFlow true true s).1 =
      { calledUpdate := true, errorShown := false, warningShown := false } ∧
    (submitFlow true true s).2.page = "success" := by
  simp [submitFlow]

/-- Helper for C5: everything is selected exactly when the null count is
zero. -/
theorem allSelected_iff_unanswered_zero (sels : List (String × Option String)) :
    allSelected sels = true ↔ unansweredCount sels = 0 := by
  induction sels with
  | nil => simp [allSelected, unansweredCount]
  | cons p rest ih =>
    cases hv : p.2 with
    | none => simp [allSelected, unansweredCount, hv]
    | some v =>
      simp only [allSelected, unansweredCount, List.all_cons, List.filter_cons, hv,
        Option.isSome_some, Bool.true_and, Option.isNone_some] at *
      simpa [allSelected, unansweredCount] using ih

/-- C5: the remaining-questions count shown on each render equals the number
of questions whose selection is null, the submit button is disabled exactly
when that count is nonzero, and the submit branch can fire only when it is
zero. -/
theorem remaining_count_gates_submit (sels : List (String × Option String))
    (pressed : Bool) :
    unansweredCount sels = (sels.map Prod.snd).countP Option.isNone ∧
    (allSelected sels = true ↔ unansweredCount sels = 0) ∧
    (submitDisabled sels = true ↔ unansweredCount sels ≠ 0) ∧
    (submitFires pressed sels = true → unansweredCount sels = 0) := by
  have hcount : unansweredCount sels = (sels.map Prod.snd).countP Option.isNone := by
    rw [unansweredCount, List.countP_map, ← List.countP_eq_length_filter]
    rfl
  have hall := allSelected_iff_unanswered_zero sels
  refine ⟨hcount, hall, ?_, ?_⟩
  · rw [submitDisabled, Bool.not_eq_true']
    constructor
    · intro h hz
      rw [hall.mpr hz] at h
      exact absurd h (by simp)
    · intro h
      cases hs : allSelected sels
      · rfl
      · exact absurd (hall.mp hs) h
  · intro h
    have hsel : allSelected sels = true := by
      rw [submitFires, Bool.and_eq_true] at h
      exact h.2
    exact hall.mp hsel

/-- C5 witness: on a concrete selection list with one unanswered question the
count is as stated and the gates evaluate accordingly. -/
theorem remaining_count_gates_submit_witness :
    unansweredCount [("1", some "John Smith"), ("2", (none : Option String))] =
      ([("1", some "John Smith"), ("2", (none : Option String))].map Prod.snd).countP
        Option.isNone ∧
    (allSelected [("1", some "John Smith"), ("2", (none : Option String))] = true ↔
      unansweredCount [("1", some "John Smith"), ("2", (none : Option String))] = 0) ∧
    (submitDisabled [("1", some "John Smith"), ("2", (none : Option String))] = true ↔
      unansweredCount [("1", some "John Smith"), ("2", (none : Option String))] ≠ 0) ∧
    (submitFires true [("1", some "John Smith"), ("2", (none : Option String))] = true →
      unansweredCount [("1", some "John Smith"), ("2", (none : Option String))] = 0) :=
  remaining_count_gates_submit _ true

/-- C6: an email that does not contain the required domain substring is
rejected with a validation error (either the empty-email or the
invalid-domain message), the employee roster is never fetched, and the
session state is unchanged. -/
theorem invalid_domain_login_rejected (email : String) (es : List Employee)
    (s : SessionState) (h : containsSub email REQUIRED_DOMAIN = false) :
    ((login_page email es s).1 = .emptyEmail ∨
     (login_page email es s).1 = .invalidDomain) ∧
    (login_page email es s).2.1 = s ∧
    (login_page email es s).2.2 = false := by
  unfold login_page
  by_cases he : email = "" <;> simp [he, h]

/-- C6 witness: a concrete personal-address login attempt is rejected without
a fetch or a state change. -/
theorem invalid_domain_login_rejected_witness :
    containsSub "bob@gmail.com" REQUIRED_DOMAIN = false ∧
    (((login_page "bob@gmail.com" seedEmployees initState).1 = .emptyEmail ∨
      (login_page "bob@gmail.com" seedEmployees initState).1 = .invalidDomain) ∧
     (login_page "bob@gmail.com" seedEmployees initState).2.1 = initState ∧
     (login_page "bob@gmail.com" seedEmployees initState).2.2 = false) :=
  ⟨by decide, invalid_domain_login_rejected "bob@gmail.com" seedEmployees initState
    (by decide)⟩

/-- C10: when the store read raises, `fetch_employees` and `fetch_questions`
report an error and return the empty list instead of propagating the failure;
consequently a login attempt during an employee-fetch outage runs against an
empty roster and is rejected as not-found (after fetching), not aborted as a
connectivity error. -/
theorem fetch_failure_degrades_to_not_found (msg : String) (email : String)
    (s : SessionState) (h1 : email ≠ "")
    (h2 : containsSub email REQUIRED_DOMAIN = true) :
    fetch_employees (.error msg) = ([], true) ∧
    fetch_questions (.error msg) = ([], true) ∧
    login_page email (fetch_employees (.error msg)).1 s = (.notFound, s, true) := by
  refine ⟨rfl, rfl, ?_⟩
  unfold login_page
  simp [h1, h2, fetch_employees, findEmployee]

/-- C10 witness: a concrete outage-time login with a valid company address is
rejected as not-found. -/
theorem fetch_failure_degrades_to_not_found_witness :
    fetch_employees (.error "connection refused") = ([], true) ∧
    fetch_questions (.error "connection refused") = ([], true) ∧
    login_page "jane.doe@keydynamicssolutions"
      (fetch_employees (.error "connection refused")).1 initState =
      (.notFound, initState, true) :=
  fetch_failure_degrades_to_not_found "connection refused"
    "jane.doe@keydynamicssolutions" initState (by decide) (by decide)

/-- Helper for C8: worksheet presence after appending one worksheet. -/
theorem hasSheet_append (st : Store) (nm k : String) (c : Sheet) :
    hasSheet (st ++ [(nm, c)]) k = (hasSheet st k || k == nm) := by
  induction st with
  | nil => cases h : (k == nm) <;> simp [hasSheet, List.lookup, h]
  | cons p rest ih =>
    obtain ⟨a, b⟩ := p
    cases h : (k == a) with
    | true => simp [hasSheet, List.lookup, h]
    | false =>
      simp only [hasSheet, List.lookup, List.cons_append, h] at *
      exact ih

/-- Helper for C8: ensuring an already-present worksheet writes nothing. -/
theorem ensureSheet_of_present (st : Store) (nm : String) (c : Sheet)
    (h : hasSheet st nm = true) : ensureSheet st nm c = st := by
  simp [ensureSheet, h]

/-- Helper for C8: ensuring one worksheet never removes another. -/
theorem hasSheet_ensureSheet_mono (st : Store) (nm k : String) (c : Sheet)
    (h : hasSheet st k = true) : hasSheet (ensureSheet st nm c) k = true := by
  by_cases hn : hasSheet st nm = true
  · simp [ensureSheet, hn, h]
  · rw [ensureSheet, if_neg hn, hasSheet_append]
    simp [h]

/-- Helper for C8: the ensured worksheet is present afterwards. -/
theorem hasSheet_ensureSheet_self (st : Store) (nm : String) (c : Sheet) :
    hasSheet (ensureSheet st nm c) nm = true := by
  by_cases hn : hasSheet st nm = true
  · simp [ensureSheet, hn]
  · rw [ensureSheet, if_neg hn, hasSheet_append]
    simp

/-- C8: table initialization is idempotent — on a store that already has the
three worksheets it performs no writes, and running it twice leaves exactly
the tables (headers and seed rows) produced by the first run. -/
theorem initialize_sheets_idempotent :
    (∀ st : Store,
      hasSheet st "employee_details" = true →
      hasSheet st "questions" = true →
      hasSheet st "employee_responses" = true →
      initialize_sheets st = st) ∧
    (∀ st : Store, initialize_sheets (initialize_sheets st) = initialize_sheets st) := by
  have part1 : ∀ st : Store,
      hasSheet st "employee_details" = true →
      hasSheet st "questions" = true →
      hasSheet st "employee_responses" = true →
      initialize_sheets st = st := by
    intro st h1 h2 h3
    rw [initialize_sheets, ensureSheet_of_present st _ _ h1,
      ensureSheet_of_present st _ _ h2, ensureSheet_of_present st _ _ h3]
  refine ⟨part1, fun st => part1 _ ?_ ?_ ?_⟩
  · rw [initialize_sheets]
    exact hasSheet_ensureSheet_mono _ _ _ _
      (hasSheet_ensureSheet_mono _ _ _ _ (hasSheet_ensureSheet_self _ _ _))
  · rw [initialize_sheets]
    exact hasSheet_ensureSheet_mono _ _ _ _ (hasSheet_ensureSheet_self _ _ _)
  · rw [initialize_sheets]
    exact hasSheet_ensureSheet_self _ _ _

/-- C8 witness: on the concrete fully-seeded store a second initialization
run changes nothing. -/
theorem initialize_sheets_idempotent_witness :
    initialize_sheets
      [("employee_details", employeeSeed), ("questions", questionsSeed),
       ("employee_responses", responsesSeed)] =
      [("employee_details", employeeSeed), ("questions", questionsSeed),
       ("employee_responses", responsesSeed)] :=
  initialize_sheets_idempotent.1 _ (by decide) (by decide) (by decide)

/-- Helper for C4: a successful `update_employee_status` writes `yes` into
the status cell of the first row whose email matches case-insensitively, and
leaves every other row unchanged. -/
theorem update_employee_status_spec (email : String) (es es' : List Employee)
    (h : update_employee_status email es = some es') :
    ∃ k, ∃ hk : k < es.length,
      (∀ j, ∀ hj : j < es.length, j < k →
        (normEmail (es.get ⟨j, hj⟩).email == normEmail email) = false) ∧
      (normEmail (es.get ⟨k, hk⟩).email == normEmail email) = true ∧
      es' = es.set k { es.get ⟨k, hk⟩ with status := "yes" } := by
  induction es generalizing es' with
  | nil => simp [update_employee_status] at h
  | cons e rest ih =>
    rw [update_employee_status] at h
    by_cases hm : (normEmail e.email == normEmail email) = true
    · rw [if_pos hm] at h
      refine ⟨0, by simp, ?_, hm, ?_⟩
      · intro j hj hj0
        omega
      · simpa using (Option.some.inj h).symm
    · rw [if_neg hm] at h
      obtain ⟨es'', h1, rfl⟩ := Option.map_eq_some'.mp h
      obtain ⟨k, hk, hbefore, hmatch, hset⟩ := ih es'' h1
      refine ⟨k + 1, by simpa using hk, ?_, hmatch, ?_⟩
      · intro j hj hjk
        cases j with
        | zero => simpa using (Bool.not_eq_true _).mp hm
        | succ j' =>
          have hj' : j' < rest.length := by simpa using hj
          have := hbefore j' hj' (by omega)
          simpa using this
      · simpa using hset

/-- Helper for C4: after a successful status update, looking up the same
email finds an employee whose status is `yes`. -/
theorem findEmployee_after_update (email : String) (es es' : List Employee)
    (h : update_employee_status email es = some es') :
    ∃ e', findEmployee es' email = some e' ∧ e'.status = "yes" := by
  induction es generalizing es' with
  | nil => simp [update_employee_status] at h
  | cons e rest ih =>
    rw [update_employee_status] at h
    by_cases hm : (normEmail e.email == normEmail email) = true
    · rw [if_pos hm] at h
      obtain rfl : ({ e with status := "yes" } :: rest) = es' := Option.some.inj h
      refine ⟨{ e with status := "yes" }, ?_, rfl⟩
      rw [findEmployee]
      exact List.find?_cons_of_pos _ (by simpa using hm)
    · rw [if_neg hm] at h
      obtain ⟨es'', h1, rfl⟩ := Option.map_eq_some'.mp h
      obtain ⟨e', hf, hs⟩ := ih es'' h1
      refine ⟨e', ?_, hs⟩
      rw [findEmployee]
      rw [List.find?_cons_of_neg _ (by simpa using hm)]
      exact hf

/-- C4: a successful `update_employee_status` writes the completed value
`yes` into the status cell of the first row whose email matches the
submitter's email case-insensitively, and a subsequent login attempt with the
same email is rejected with the already-completed error, leaving the session
state unchanged (no transition to the questions page). -/
theorem status_update_then_login_rejected (email : String) (es es' : List Employee)
    (s : SessionState)
    (hup : update_employee_status email es = some es')
    (hne : ¬ email = "")
    (hdom : containsSub email REQUIRED_DOMAIN = true) :
    (∃ k, ∃ hk : k < es.length,
      (∀ j, ∀ hj : j < es.length, j < k →
        (normEmail (es.get ⟨j, hj⟩).email == normEmail email) = false) ∧
      (normEmail (es.get ⟨k, hk⟩).email == normEmail email) = true ∧
      es' = es.set k { es.get ⟨k, hk⟩ with status := "yes" }) ∧
    login_page email es' s = (.alreadyCompleted, s, true) := by
  refine ⟨update_employee_status_spec email es es' hup, ?_⟩
  obtain ⟨e', hf, hs⟩ := findEmployee_after_update email es es' hup
  unfold login_page
  rw [if_neg hne, if_neg (by simp [hdom])]
  rw [hf]
  simp only [hs]
  rw [if_pos (by decide)]

/-- The employee table after Jane's successful submission. -/
def seedEmployeesJaneDone : List Employee :=
  [{ name := "Jane Doe", email := "jane.doe@keydynamicssolutions", status := "yes" },
   { name := "John Smith", email := "john.smith@keydynamicssolutions", status := "no" }]

/-- C4 witness: on the seed table, updating Jane's status makes her next
login attempt fail with the already-completed error. -/
theorem status_update_then_login_rejected_witness :
    login_page "jane.doe@keydynamicssolutions" seedEmployeesJaneDone initState =
      (.alreadyCompleted, initState, true) :=
  (status_update_then_login_rejected "jane.doe@keydynamicssolutions" seedEmployees
    seedEmployeesJaneDone initState (by decide) (by decide) (by decide)).2

/-- Helper: lexicographic comparison is irreflexive. -/
theorem lexLt_irrefl (a : List Char) : lexLt a a = false := by
  induction a with
  | nil => rfl
  | cons c cs ih => simp [lexLt, ih]

/-- Helper: lexicographic comparison is transitive. -/
theorem lexLt_trans (a b c : List Char) (h1 : lexLt a b = true)
    (h2 : lexLt b c = true) : lexLt a c = true := by
  induction a generalizing b c with
  | nil =>
    cases b with
    | nil => simp [lexLt] at h1
    | cons y ys =>
      cases c with
      | nil => simp [lexLt] at h2
      | cons z zs => rfl
  | cons x xs ih =>
    cases b with
    | nil => simp [lexLt] at h1
    | cons y ys =>
      cases c with
      | nil => simp [lexLt] at h2
      | cons z zs =>
        simp only [lexLt, Bool.or_eq_true, Bool.and_eq_true, beq_iff_eq,
          decide_eq_true_eq] at h1 h2 ⊢
        rcases h1 with hxy | ⟨hxy, hxs⟩
        · rcases h2 with hyz | ⟨hyz, hys⟩
          · exact Or.inl (lt_trans hxy hyz)
          · exact Or.inl (hyz ▸ hxy)
        · rcases h2 with hyz | ⟨hyz, hys⟩
          · exact Or.inl (hxy ▸ hyz)
          · exact Or.inr ⟨hxy.trans hyz, ih ys zs hxs hys⟩

/-- Helper: two lists neither of which is lexicographically below the other
are equal. -/
theorem lexLt_connex (a b : List Char) (h1 : lexLt a b = false)
    (h2 : lexLt b a = false) : a = b := by
  induction a generalizing b with
  | nil =>
    cases b with
    | nil => rfl
    | cons y ys => simp [lexLt] at h1
  | cons x xs ih =>
    cases b with
    | nil => simp [lexLt] at h2
    | cons y ys =>
      simp only [lexLt, Bool.or_eq_false_iff, Bool.and_eq_false_iff, beq_iff_eq,
        decide_eq_false_iff_not, beq_eq_false_iff_ne, ne_eq] at h1 h2
      have hxy : x = y := le_antisymm (not_lt.mp h2.1) (not_lt.mp h1.1)
      subst hxy
      have hxs : lexLt xs ys = false := by
        rcases h1.2 with h | h
        · exact absurd rfl h
        · exact h
      have hys : lexLt ys xs = false := by
        rcases h2.2 with h | h
        · exact absurd rfl h
        · exact h
      rw [ih ys hxs hys]

/-- Helper: `strLe` is transitive (needed for the sortedness of the nominee
list). -/
theorem strLe_trans (a b c : String) (h1 : strLe a b = true)
    (h2 : strLe b c = true) : strLe a c = true := by
  rw [strLe, Bool.not_eq_true'] at h1 h2 ⊢
  cases hca : lexLt c.data a.data with
  | false => rfl
  | true =>
    cases hbc : lexLt b.data c.data with
    | false =>
      have := lexLt_connex c.data b.data h2 hbc
      rw [← this] at h1
      rw [h1] at hca
      cases hca
    | true =>
      have := lexLt_trans b.data c.data a.data hbc hca
      rw [h1] at this
      cases this

/-- Helper: `strLe` is total (needed for the sortedness of the nominee
list). -/
theorem strLe_total (a b : String) : (strLe a b || strLe b a) = true := by
  rw [strLe, strLe]
  cases hba : lexLt b.data a.data with
  | false => rfl
  | true =>
    cases hab : lexLt a.data b.data with
    | false => rfl
    | true =>
      have := lexLt_trans a.data b.data a.data hab hba
      rw [lexLt_irrefl] at this
      cases this

/-- Helper: membership in the nominee list is exactly having the name of some
employee whose email differs case-insensitively from the current user's. -/
theorem mem_computeNames (employees : List Employee) (ue nm : String) :
    nm ∈ computeNames employees ue ↔
      ∃ e ∈ employees, e.name = nm ∧
        (normEmail e.email == normEmail ue) = false := by
  rw [computeNames, List.mem_mergeSort, List.mem_dedup]
  simp only [List.mem_map, List.mem_filter, Bool.not_eq_eq_eq_not, Bool.not_true]
  constructor
  · rintro ⟨e, ⟨he, hcond⟩, rfl⟩
    exact ⟨e, he, rfl, hcond⟩
  · rintro ⟨e, he, rfl, hcond⟩
    exact ⟨e, ⟨he, hcond⟩, rfl⟩

/-- C9: the eligible nominee list consists exactly of the names of employees
whose email differs case-insensitively from the logged-in user's, without
duplicates and sorted ascending in Python string order; the questions shown
are the first six of the questions table in source order. -/
theorem nominee_list_and_active_questions (employees : List Employee)
    (ue : String) (qs : List Question) :
    (∀ nm, nm ∈ computeNames employees ue ↔
      ∃ e ∈ employees, e.name = nm ∧
        (normEmail e.email == normEmail ue) = false) ∧
    (computeNames employees ue).Pairwise (fun a b => strLe a b = true) ∧
    (computeNames employees ue).Nodup ∧
    activeQuestions qs = qs.take 6 := by
  refine ⟨fun nm => mem_computeNames employees ue nm, ?_, ?_, rfl⟩
  · rw [computeNames]
    exact List.sorted_mergeSort strLe_trans strLe_total _
  · rw [computeNames]
    exact ((List.mergeSort_perm _ strLe).symm).nodup (List.nodup_dedup _)

/-- C9 witness: on the seed roster with Jane logged in, the list contains
John's name, and is duplicate-free. -/
theorem nominee_list_and_active_questions_witness :
    "John Smith" ∈ computeNames seedEmployees "jane.doe@keydynamicssolutions" ∧
    (computeNames seedEmployees "jane.doe@keydynamicssolutions").Nodup := by
  have h := nominee_list_and_active_questions seedEmployees
    "jane.doe@keydynamicssolutions" []
  refine ⟨(h.1 "John Smith").mpr ?_, h.2.2.1⟩
  exact ⟨{ name := "John Smith", email := "john.smith@keydynamicssolutions",
           status := "no" }, by decide, rfl, by decide⟩

/-- C1: submitting a full answer set over the active questions (the first
six, each selection non-null and drawn from the nominee list) builds exactly
one response record per active question, in order, each carrying that
question's id, the respondent's email and name, and a nominee who is some
employee other than the submitter (by case-insensitive email); the batch
append adds exactly these records to the responses table. -/
theorem submit_appends_one_record_per_question (user_email user_name : String)
    (allQs : List Question) (employees : List Employee)
    (sels : List (String × Option String)) (store : List ResponseRecord)
    (hfull : ∀ q ∈ activeQuestions allQs, ∃ nm,
      selGet sels (toString q.question_id) = some nm ∧
      nm ∈ computeNames employees user_email) :
    (buildResponses user_email user_name (activeQuestions allQs) sels).length =
      (activeQuestions allQs).length ∧
    (buildResponses user_email user_name (activeQuestions allQs) sels).map
      ResponseRecord.question_id = (activeQuestions allQs).map Question.question_id ∧
    (∀ r ∈ buildResponses user_email user_name (activeQuestions allQs) sels,
      r.email = user_email ∧ r.name = user_name) ∧
    (∀ r ∈ buildResponses user_email user_name (activeQuestions allQs) sels,
      ∃ nm, r.name_of_person_in_response = some nm ∧
        ∃ e ∈ employees, e.name = nm ∧
          (normEmail e.email == normEmail user_email) = false) ∧
    (((activeQuestions allQs).map Question.question_id).Nodup →
      ((buildResponses user_email user_name (activeQuestions allQs) sels).map
        ResponseRecord.question_id).Nodup) ∧
    append_responses store
        (buildResponses user_email user_name (activeQuestions allQs) sels) =
      store ++ buildResponses user_email user_name (activeQuestions allQs) sels ∧
    (append_responses store
        (buildResponses user_email user_name (activeQuestions allQs) sels)).length =
      store.length + (activeQuestions allQs).length := by
  have hmap : (buildResponses user_email user_name (activeQuestions allQs) sels).map
      ResponseRecord.question_id = (activeQuestions allQs).map Question.question_id := by
    rw [buildResponses, List.map_map]
    rfl
  refine ⟨?_, hmap, ?_, ?_, ?_, rfl, ?_⟩
  · rw [buildResponses, List.length_map]
  · intro r hr
    rw [buildResponses, List.mem_map] at hr
    obtain ⟨q, hq, rfl⟩ := hr
    exact ⟨rfl, rfl⟩
  · intro r hr
    rw [buildResponses, List.mem_map] at hr
    obtain ⟨q, hq, rfl⟩ := hr
    obtain ⟨nm, hsel, hmem⟩ := hfull q hq
    exact ⟨nm, hsel, (mem_computeNames employees user_email nm).mp hmem⟩
  · intro hnd
    rw [hmap]
    exact hnd
  · rw [append_responses, List.length_append, buildResponses, List.length_map]

/-- Two of the seeded questions, used as a concrete active-question set. -/
def twoQuestions : List Question :=
  [{ question_id := 1, question := "Who is the most collaborative person on the team?" },
   { question_id := 2, question := "Who provides the most constructive feedback?" }]

/-- A full concrete answer set for `twoQuestions`. -/
def janeSelections : List (String × Option String) :=
  [("1", some "John Smith"), ("2", some "John Smith")]

/-- C1 witness: Jane's full answer set over two active questions builds one
record per question, carrying exactly the active question ids. -/
theorem submit_appends_one_record_per_question_witness :
    (buildResponses "jane.doe@keydynamicssolutions" "Jane Doe"
      (activeQuestions twoQuestions) janeSelections).length =
      (activeQuestions twoQuestions).length ∧
    (buildResponses "jane.doe@keydynamicssolutions" "Jane Doe"
      (activeQuestions twoQuestions) janeSelections).map ResponseRecord.question_id =
      (activeQuestions twoQuestions).map Question.question_id := by
  have hjohn : "John Smith" ∈ computeNames seedEmployees
      "jane.doe@keydynamicssolutions" :=
    (mem_computeNames seedEmployees "jane.doe@keydynamicssolutions" "John Smith").mpr
      ⟨{ name := "John Smith", email := "john.smith@keydynamicssolutions",
         status := "no" }, by decide, rfl, by decide⟩
  have h := submit_appends_one_record_per_question "jane.doe@keydynamicssolutions"
    "Jane Doe" twoQuestions seedEmployees janeSelections []
    (by
      intro q hq
      have hq2 : q ∈ twoQuestions := by simpa [activeQuestions] using hq
      have hall : ∀ p ∈ twoQuestions,
          selGet janeSelections (toString p.question_id) = some "John Smith" := by
        decide
      exact ⟨"John Smith", hall q hq2, hjohn⟩)
  exact ⟨h.1, h.2.1⟩

/-- Helper for C7: bumping one name changes only that name's tally entry. -/
theorem lookup_bump (acc : List (String × Nat)) (k nm : String) :
    List.lookup nm (bump acc k) =
      if nm = k then some ((List.lookup nm acc).getD 0 + 1)
      else List.lookup nm acc := by
  induction acc with
  | nil =>
    by_cases h : nm = k
    · subst h
      simp [bump, List.lookup]
    · have hb : (nm == k) = false := by simp [h]
      simp [bump, List.lookup, h, hb]
  | cons p rest ih =>
    obtain ⟨a, v⟩ := p
    by_cases hak : a = k
    · subst hak
      by_cases hna : nm = a
      · subst hna
        simp [bump, List.lookup]
      · have hb : (nm == a) = false := by simp [hna]
        simp [bump, List.lookup, hna, hb]
    · rw [bump, if_neg hak]
      by_cases hna : nm = a
      · subst hna
        simp [List.lookup, hak]
      · have hb : (nm == a) = false := by simp [hna]
        simp [List.lookup, hb, ih]

/-- Helper for C7: the tally fold counts the occurrences of each name on top
of the accumulator. -/
theorem lookup_foldl_bump (ns : List String) (acc : List (String × Nat))
    (nm : String) :
    List.lookup nm (ns.foldl bump acc) =
      if nm ∈ ns ∨ (List.lookup nm acc).isSome = true then
        some ((List.lookup nm acc).getD 0 + ns.count nm)
      else none := by
  induction ns generalizing acc with
  | nil =>
    cases h : List.lookup nm acc with
    | none => simp [h]
    | some v => simp [h]
  | cons n rest ih =>
    rw [List.foldl_cons, ih, lookup_bump]
    by_cases hnn : nm = n
    · subst hnn
      simp [List.count_cons]
      omega
    · have hnn' : ¬ n = nm := fun h => hnn h.symm
      rw [if_neg hnn]
      have hcz : List.count nm (n :: rest) = List.count nm rest := by
        simp [List.count_cons, hnn']
      rw [hcz]
      exact if_congr (by simp [List.mem_cons, hnn]) rfl rfl

/-- Helper for C7: for every name occurring among the responses to a
question, the tally records exactly its occurrence count. -/
theorem lookup_tallyVotes (ns : List String) (nm : String) (h : nm ∈ ns) :
    List.lookup nm (tallyVotes ns) = some (ns.count nm) := by
  rw [tallyVotes, lookup_foldl_bump]
  simp [h]

/-- Helper for C7: bumping appends a fresh key and keeps existing keys in
place. -/
theorem keys_bump (acc : List (String × Nat)) (k : String) :
    (bump acc k).map Prod.fst =
      if k ∈ acc.map Prod.fst then acc.map Prod.fst
      else acc.map Prod.fst ++ [k] := by
  induction acc with
  | nil => simp [bump]
  | cons p rest ih =>
    obtain ⟨a, v⟩ := p
    by_cases hak : a = k
    · subst hak
      simp [bump]
    · rw [bump, if_neg hak]
      have hka : ¬ k = a := fun h => hak h.symm
      by_cases hk : k ∈ rest.map Prod.fst
      · simp [hk, ih, hka]
      · simp [hk, ih, hka]

/-- Helper for C7: the keys of the tally fold are the accumulator's keys
followed by the new names in first-occurrence order. -/
theorem keys_foldl_bump (ns : List String) (acc : List (String × Nat)) :
    (ns.foldl bump acc).map Prod.fst =
      ns.foldl (fun l n => if n ∈ l then l else l ++ [n]) (acc.map Prod.fst) := by
  induction ns generalizing acc with
  | nil => rfl
  | cons n rest ih =>
    rw [List.foldl_cons, List.foldl_cons, ih, keys_bump]

/-- Helper for C7: the tally lists the nominees in the order their names
first occur in the question's responses. -/
theorem tallyVotes_keys (ns : List String) :
    (tallyVotes ns).map Prod.fst = firstOccs ns := by
  rw [tallyVotes, keys_foldl_bump]
  rfl

/-- Helper for C7: the descending-count comparator is transitive. -/
theorem voteLe_trans (a b c : String × Nat) (h1 : voteLe a b = true)
    (h2 : voteLe b c = true) : voteLe a c = true := by
  simp only [voteLe, decide_eq_true_eq] at *
  omega

/-- Helper for C7: the descending-count comparator is total. -/
theorem voteLe_total (a b : String × Nat) : (voteLe a b || voteLe b a) = true := by
  simp only [voteLe, Bool.or_eq_true, decide_eq_true_eq]
  omega

/-- Helper for C7 (stability): filtering the sorted tally at any fixed count
yields the same list, in the same order, as filtering the unsorted tally —
equal-count entries are not reordered by the sort. -/
theorem mergeSort_filter_count (t : List (String × Nat)) (c : Nat) :
    (t.mergeSort voteLe).filter (fun p => p.2 == c) =
      t.filter (fun p => p.2 == c) := by
  have hallc : ∀ p ∈ t.filter (fun p => p.2 == c), p.2 = c := by
    intro p hp
    have := (List.mem_filter.mp hp).2
    simpa using this
  have hsub : List.Sublist (t.filter (fun p => p.2 == c)) (t.mergeSort voteLe) := by
    apply List.sublist_mergeSort voteLe_trans voteLe_total
    · apply List.pairwise_of_forall_mem_list
      intro a ha b hb
      simp [voteLe, hallc a ha, hallc b hb]
    · exact List.filter_sublist t
  have hsub2 : List.Sublist (t.filter (fun p => p.2 == c))
      ((t.mergeSort voteLe).filter (fun p => p.2 == c)) := by
    have h2 := hsub.filter (fun p => p.2 == c)
    rwa [List.filter_eq_self.mpr (fun a ha => by simpa using hallc a ha)] at h2
  refine (hsub2.eq_of_length ?_).symm
  rw [← List.countP_eq_length_filter, ← List.countP_eq_length_filter]
  exact ((List.mergeSort_perm t voteLe).countP_eq _).symm

/-- C7: for one question the admin report filters the responses by equality
of `question_id`, tallies occurrence counts per nominee (the tally maps each
occurring nominee to its exact count), and lists nominees in non-increasing
order of count; entries with equal counts keep the tally's order, and the
tally's order is the order in which the names first occur in the question's
response sequence. -/
theorem admin_report_per_question (responses : List RespRow) (qid : Nat) :
    (∀ nm ∈ questionNames responses qid,
      List.lookup nm (tallyVotes (questionNames responses qid)) =
        some ((questionNames responses qid).count nm)) ∧
    List.Perm (sortedVotes responses qid) (tallyVotes (questionNames responses qid)) ∧
    (sortedVotes responses qid).Pairwise (fun a b => b.2 ≤ a.2) ∧
    (∀ c, (sortedVotes responses qid).filter (fun p => p.2 == c) =
      (tallyVotes (questionNames responses qid)).filter (fun p => p.2 == c)) ∧
    (tallyVotes (questionNames responses qid)).map Prod.fst =
      firstOccs (questionNames responses qid) := by
  refine ⟨fun nm h => lookup_tallyVotes _ nm h,
    List.mergeSort_perm _ voteLe, ?_,
    fun c => mergeSort_filter_count _ c,
    tallyVotes_keys _⟩
  have h := List.sorted_mergeSort voteLe_trans voteLe_total
    (tallyVotes (questionNames responses qid))
  exact h.imp (fun hab => by simpa [voteLe] using hab)

/-- Responses to question 1 with votes Alice 3, Bob 3, Carol 1 (plus one
response to question 2, which the filter must drop). -/
def exampleResponses : List RespRow :=
  [{ email := "a@x", name := "R1", question_id := 1, name_of_person_in_response := "Alice" },
   { email := "b@x", name := "R2", question_id := 2, name_of_person_in_response := "Carol" },
   { email := "c@x", name := "R3", question_id := 1, name_of_person_in_response := "Bob" },
   { email := "d@x", name := "R4", question_id := 1, name_of_person_in_response := "Alice" },
   { email := "e@x", name := "R5", question_id := 1, name_of_person_in_response := "Bob" },
   { email := "f@x", name := "R6", question_id := 1, name_of_person_in_response := "Carol" },
   { email := "g@x", name := "R7", question_id := 1, name_of_person_in_response := "Alice" },
   { email := "h@x", name := "R8", question_id := 1, name_of_person_in_response := "Bob" }]

/-- C7 witness: on the spec's example tallies the report lists Alice and Bob
with 3 votes each (in first-occurrence order) and Carol with 1, and the
equal-count filter property holds. -/
theorem admin_report_per_question_witness :
    sortedVotes exampleResponses 1 = [("Alice", 3), ("Bob", 3), ("Carol", 1)] ∧
    (sortedVotes exampleResponses 1).filter (fun p => p.2 == 3) =
      (tallyVotes (questionNames exampleResponses 1)).filter (fun p => p.2 == 3) := by
  have h := admin_report_per_question exampleResponses 1
  refine ⟨?_, h.2.2.2.1 3⟩
  have ht : tallyVotes (questionNames exampleResponses 1) =
      [("Alice", 3), ("Bob", 3), ("Carol", 1)] := by decide
  rw [sortedVotes, ht]
  exact List.mergeSort_of_sorted (by decide)

end Vote
